import Mathlib

/-!
Verification model of the `TreeBuilder` resolution engine from
`src/tree-builder.js` (node-treebuilder).

The engine is modelled as a shallow embedding: JavaScript values are the
inductive `Val` (objects are ordered field lists, where a later binding for
the same key shadows an earlier one, exactly like the object-literal
spreads used throughout the source), and the asynchronous resolution
functions are modelled as fuel-indexed state-passing functions.  In the
sequential semantics used here every `await` completes immediately, so
`Promise.all` over a node's children becomes left-to-right resolution
threading the cache state.  The fuel argument is a modelling artifact that
bounds recursion depth; every branch of every theorem instantiates it with
enough fuel for the run at hand.
-/

/-- A JavaScript value as used by the tree builder: `undefined`, `null`,
booleans, strings, arrays, and plain objects (ordered key/value lists,
later bindings shadowing earlier ones). -/
inductive Val where
  | undef
  | null
  | bool (b : Bool)
  | str (s : String)
  | arr (elems : List Val)
  | obj (fields : List (String × Val))

/-- JavaScript truthiness for the values in the model (`undefined`, `null`,
`false` and the empty string are falsy; arrays and objects are always
truthy). -/
def truthy : Val → Bool
  | Val.undef => false
  | .null => false
  | .bool b => b
  | .str s => !s.data.isEmpty
  | .arr _ => true
  | .obj _ => true

/-- Look a key up in an ordered field list; the last binding for the key
wins, matching the semantics of repeated keys produced by object spreads. -/
def getField : List (String × Val) → String → Option Val
  | [], _ => none
  | (k, v) :: rest, key =>
    match getField rest key with
    | some w => some w
    | none => if k = key then some v else none

/-- Property read on a value; non-objects have no properties in the model. -/
def Val.getProp : Val → String → Option Val
  | .obj fields, key => getField fields key
  | _, _ => none

/-- Property read defaulting to `undefined`, as a JavaScript property
access does. -/
def Val.getPropD (v : Val) (key : String) : Val :=
  (v.getProp key).getD Val.undef

/-- Does the value carry the key as an own property (even one whose value
is `undefined`)? -/
def Val.hasProp : Val → String → Bool
  | .obj fields, key => fields.any (fun p => decide (p.1 = key))
  | _, _ => false

/-- The field list contributed by `...v` in an object literal: objects
contribute their fields, primitives contribute nothing. -/
def spreadFields : Val → List (String × Val)
  | .obj fields => fields
  | _ => []

/-- Remove the listed keys from a field list, modelling the rest pattern of
a destructuring such as `const { ref, async: _, queueName, ...rest }`. -/
def removeKeys (fields : List (String × Val)) (keys : List String) : List (String × Val) :=
  fields.filter (fun p => decide (p.1 ∉ keys))

/-- JavaScript `a || b` on model values. -/
def jsOr (a b : Val) : Val :=
  if truthy a then a else b

/-- ASCII lower-casing of a character, as `toLowerCase` acts on the ASCII
names used by the builder. -/
def lowerChar (c : Char) : Char :=
  if 'A' ≤ c ∧ c ≤ 'Z' then Char.ofNat (c.toNat + 32) else c

/-- `name.toLowerCase()` for the ASCII function names of the model. -/
def lowerStr (s : String) : String :=
  ⟨s.data.map lowerChar⟩

/-- Read a string value; references, names and types are strings in every
well-formed input to the builder. -/
def strOf : Val → String
  | .str s => s
  | _ => ""

/-- Lexicographic comparison of character lists, used to model the default
`Array.prototype.sort()` comparison on the (ASCII) visited names. -/
def charListLt : List Char → List Char → Bool
  | [], [] => false
  | [], _ :: _ => true
  | _ :: _, [] => false
  | a :: as, b :: bs => if a = b then charListLt as bs else decide (a.toNat < b.toNat)

/-- String comparison for the visited-set sort. -/
def strLt (a b : String) : Bool :=
  charListLt a.data b.data

/-- Insert into a sorted list of strings. -/
def sortInsert (x : String) : List String → List String
  | [] => [x]
  | y :: rest => if strLt x y then x :: y :: rest else y :: sortInsert x rest

/-- Insertion sort on strings, modelling `[...visited].sort()`. -/
def sortStrings : List String → List String
  | [] => []
  | x :: rest => sortInsert x (sortStrings rest)

/-- `Map.prototype.get`: first (and only) binding of the key. -/
def mapGet : List (String × Val) → String → Option Val
  | [], _ => none
  | (k, v) :: rest, key => if k = key then some v else mapGet rest key

/-- `Map.prototype.has`. -/
def mapHas (m : List (String × Val)) (key : String) : Bool :=
  (mapGet m key).isSome

/-- `Map.prototype.set`: replace in place, else append (JS maps keep the
original insertion position of an overwritten key). -/
def mapSet : List (String × Val) → String → Val → List (String × Val)
  | [], key, v => [(key, v)]
  | (k, w) :: rest, key, v =>
    if k = key then (key, v) :: rest else (k, w) :: mapSet rest key v

/-- `Set.prototype.add` on a set modelled as a duplicate-free list that
remembers insertion order. -/
def setAdd (s : List String) (x : String) : List String :=
  if x ∈ s then s else s ++ [x]

/-- Remove the (unique) occurrence of a key, modelling `Map.prototype.delete`
on the in-flight map. -/
def eraseStr : List String → String → List String
  | [], _ => []
  | y :: rest, x => if y = x then rest else y :: eraseStr rest x

/-- Outcome of invoking an external resolver callback: a returned value, or
a thrown/rejected error carrying the derived message string
(`error instanceof Error ? error.message : String(error)`). -/
inductive ResolverResult where
  | ok (v : Val)
  | thrown (message : String)

/-- The builder's constructor configuration together with the two optional
resolver callbacks of the instance (`asyncResolver`,
`topicPublishResolver`), which the source keeps as instance fields next to
`this.config`. -/
structure Config where
  unresolvedSeverity : String := "warning"
  filterEmptyUiServiceMethods : Bool := false
  filterEmptyUiServices : Bool := false
  logNodeTypes : Option (List String) := none
  asyncResolver : Option (Val → Val → ResolverResult) := none
  topicPublishResolver : Option (Val → Val → ResolverResult) := none

/-- The per-build mutable state: the resolution cache `resolvedFunctions`
and the keys of the in-flight map `inFlightResolutions`. -/
structure ResolutionState where
  resolvedFunctions : List (String × Val)
  inFlight : List String

/-- A `TreeBuilder` instance: the function registry, the configuration and
resolvers, and the per-build state. -/
structure TreeBuilder where
  functionDefs : List (String × Val) := []
  config : Config := {}
  resolvedFunctions : List (String × Val) := []
  inFlight : List String := []

/-- `_createResolverErrorMetadataLines`: the single non-clickable line
attached when an external resolver throws. -/
def createResolverErrorMetadataLines (resolverName : String) (message : String) : List Val :=
  [Val.obj [("text", .str (resolverName ++ " errored out" ++
              (if message = "" then "" else ": " ++ message))),
            ("clickable", .bool false)]]

/-- `_resolveExternalProps`: invoke an optional resolver; `null`/`undefined`
results and a missing resolver both yield empty props, a thrown error
yields empty props plus the error metadata line. -/
def resolveExternalProps (resolver : Option (Val → Val → ResolverResult))
    (resolverName : String) (arg1 arg2 : Val) : Val × List Val :=
  match resolver with
  | none => (.obj [], [])
  | some r =>
    match r arg1 arg2 with
    | .ok .null => (.obj [], [])
    | .ok Val.undef => (.obj [], [])
    | .ok v => (v, [])
    | .thrown m => (.obj [], createResolverErrorMetadataLines resolverName m)

/-- `_mergeMetadataLines`: flatten the line groups one level, drop falsy
entries, and collapse an empty result to `undefined` (`none`). -/
def mergeMetadataLines (lineGroups : List Val) : Option (List Val) :=
  let merged := (lineGroups.map (fun g => match g with | .arr l => l | v => [v])).flatten.filter truthy
  if merged.isEmpty then none else some merged

/-- `_normalizeName`: case-insensitive lookup key for a function name. -/
def normalizeName (name : String) : String :=
  lowerStr name

/-- `_getDisplayName`: the registry entry's `displayName` when it is a
non-empty string, else the provided name (`def?.displayName || name`). -/
def getDisplayName (functionDefs : List (String × Val)) (name : String) : String :=
  match mapGet functionDefs (normalizeName name) with
  | none => name
  | some d =>
    match d.getProp "displayName" with
    | some (.str s) => if s = "" then name else s
    | _ => name

/-- The registry `queueName` of the function a reference points at
(`funcDef?.queueName`), `undefined` when the function or the field is
missing. -/
def funcQueueNameOf (functionDefs : List (String × Val)) (refName : String) : Val :=
  match mapGet functionDefs (normalizeName refName) with
  | some d => d.getPropD "queueName"
  | none => Val.undef

/-- `_getFunctionCacheKey`: `normalize(name) + "::" + sortedJoin(visited)`. -/
def getFunctionCacheKey (name : String) (visited : List String) : String :=
  normalizeName name ++ "::" ++ String.intercalate "|" (sortStrings visited)

/-- `_createCycleStopper`. -/
def createCycleStopper (displayName : String) (path : List String) : Val :=
  .obj [("name", .str ("loop detected stopping (" ++ displayName ++ ")")),
        ("type", .str "dupe-stopper"),
        ("_cycleAt", .str displayName),
        ("_path", .arr ((path ++ [displayName]).map .str))]

/-- `_applyLogMetadataLine`: prepend a clickable "Logs" line when the
node's type is in the configured `logNodeTypes` list. -/
def applyLogMetadataLine (cfg : Config) (node : Val) (extraData : List (String × Val)) : Val :=
  match cfg.logNodeTypes with
  | none => node
  | some logTypes =>
    if !truthy node then node
    else
      let nodeType := node.getPropD "type"
      let isListed := match nodeType with
        | .str t => decide (t ∈ logTypes)
        | _ => false
      if !isListed then node
      else
        let logData := Val.obj (("name", node.getPropD "name") ::
                                ("type", nodeType) :: extraData)
        let logLine := Val.obj [("text", .str "Logs"), ("clickable", .bool true),
                                ("data", logData)]
        let oldLines := match node.getProp "metadata_lines" with
          | some (.arr l) => l
          | _ => []
        .obj (spreadFields node ++ [("metadata_lines", .arr (logLine :: oldLines))])

/-- `defineFunction(name, children, extraProps)`. -/
def TreeBuilder.defineFunction (b : TreeBuilder) (name : String)
    (children : List Val) (extraProps : Val) : TreeBuilder :=
  let normalizedName := normalizeName name
  let propsWithDisplayName :=
    if truthy (extraProps.getPropD "displayName") then spreadFields extraProps
    else ("displayName", Val.str name) :: spreadFields extraProps
  let newDefs := mapSet b.functionDefs normalizedName
    (.obj (("children", .arr children) :: propsWithDisplayName))
  { b with functionDefs := newDefs }

/-- `defineFunctions(defs)`: entries are processed in order, a later entry
for the same normalized name overwriting an earlier one. -/
def TreeBuilder.defineFunctions (b : TreeBuilder) (defs : List (String × Val)) : TreeBuilder :=
  defs.foldl (fun b' p =>
    let name := p.1
    let childrenV := p.2.getPropD "children"
    let props := removeKeys (spreadFields p.2) ["children"]
    let normalizedName := normalizeName name
    let propsWithDisplayName :=
      if truthy ((getField props "displayName").getD Val.undef) then props
      else ("displayName", Val.str name) :: props
    let storedChildren := if truthy childrenV then childrenV else Val.arr []
    let newDefs := mapSet b'.functionDefs normalizedName
      (.obj (("children", storedChildren) :: propsWithDisplayName))
    { b' with functionDefs := newDefs }) b

/-- `setAsyncResolver`. -/
def TreeBuilder.setAsyncResolver (b : TreeBuilder) (r : Val → Val → ResolverResult) : TreeBuilder :=
  { b with config := { b.config with asyncResolver := some r } }

/-- `setTopicPublishResolver`. -/
def TreeBuilder.setTopicPublishResolver (b : TreeBuilder) (r : Val → Val → ResolverResult) : TreeBuilder :=
  { b with config := { b.config with topicPublishResolver := some r } }

/-- Static `TreeBuilder.ref`. -/
def TreeBuilder.ref (name : String) : Val :=
  .obj [("ref", .str name)]

/-- Static `TreeBuilder.asyncRef`. -/
def TreeBuilder.asyncRef (name : String) (queueName : Val) (props : List (String × Val)) : Val :=
  .obj ([("ref", .str name), ("async", .bool true), ("queueName", queueName)] ++ props)

/-- Static `TreeBuilder.topicPublishRef`. -/
def TreeBuilder.topicPublishRef (topicName : Val) (queueName : Val) (props : List (String × Val)) : Val :=
  .obj ([("ref", Val.undef), ("topicName", topicName), ("topicPublish", .bool true),
         ("async", .bool false), ("queueName", queueName)] ++ props)

mutual
/-- `_resolveAndCacheFunction(name, visited, path)`, fuel-indexed.  The
fuel-zero case is a modelling artifact (the source never runs out of
recursion depth on inputs whose cycles are broken by the visited set); all
theorems below supply positive fuel.  The in-flight `await` branch returns
`undefined` because under the sequential semantics a repeated request for
an in-flight key can arise only under true concurrency. -/
def resolveAndCacheFunction (cfg : Config) (functionDefs : List (String × Val)) :
    Nat → String → List String → List String → ResolutionState → Val × ResolutionState
  | 0, _, _, _, st => (Val.undef, st)
  | fuel + 1, name, visited, path, st =>
    let normalizedName := normalizeName name
    let cacheKey := getFunctionCacheKey normalizedName visited
    if normalizedName ∈ visited then
      (createCycleStopper (getDisplayName functionDefs name) path, st)
    else if mapHas st.resolvedFunctions cacheKey then
      ((mapGet st.resolvedFunctions cacheKey).getD Val.undef, st)
    else if cacheKey ∈ st.inFlight then
      (Val.undef, st)
    else
      match mapGet functionDefs normalizedName with
      | none =>
        let unresolvedNode := Val.obj
          [("name", .str ("dependency to " ++ name ++
             " could not be resolved so the tree may be incomplete")),
           ("type", .str cfg.unresolvedSeverity),
           ("_unresolvedRef", .str name)]
        (unresolvedNode,
         { st with resolvedFunctions := mapSet st.resolvedFunctions cacheKey unresolvedNode })
      | some fnDef =>
        let childrenV := fnDef.getProp "children"
        let appV := fnDef.getPropD "app"
        let outputName := match fnDef.getProp "displayName" with
          | some (.str s) => if s = "" then name else s
          | _ => name
        let props := removeKeys (spreadFields fnDef) ["children", "app", "queueName", "displayName"]
        let newVisited := setAdd visited normalizedName
        let newPath := path ++ [outputName]
        let finalProps :=
          if truthy appV then
            let appMetadataLine := Val.obj [("text", appV), ("clickable", .bool false)]
            let oldLines := match getField props "metadata_lines" with
              | some (.arr l) => l
              | _ => []
            props ++ [("metadata_lines", Val.arr (appMetadataLine :: oldLines))]
          else props
        let resolvedFields := ("name", Val.str outputName) :: ("type", Val.str "function") :: finalProps
        let st1 := { st with inFlight := cacheKey :: st.inFlight }
        let (resolvedFields2, st2) :=
          match childrenV with
          | some (.arr childList) =>
            if childList.isEmpty then (resolvedFields, st1)
            else
              let (childVals, st') := resolveChildren cfg functionDefs fuel childList newVisited newPath st1
              (resolvedFields ++ [("children", Val.arr childVals)], st')
          | _ => (resolvedFields, st1)
        let finalResolved := applyLogMetadataLine cfg (.obj resolvedFields2)
          (if truthy appV then [("app", appV)] else [])
        let st3 := { st2 with
          resolvedFunctions := mapSet st2.resolvedFunctions cacheKey finalResolved,
          inFlight := eraseStr st2.inFlight cacheKey }
        (finalResolved, st3)

/-- `_resolveChild(child, visited, path)`, the pass-1 child resolution. -/
def resolveChild (cfg : Config) (functionDefs : List (String × Val)) :
    Nat → Val → List String → List String → ResolutionState → Val × ResolutionState
  | 0, _, _, _, st => (Val.undef, st)
  | fuel + 1, child, visited, path, st =>
    let refV := child.getPropD "ref"
    let asyncV := child.getPropD "async"
    let topicPublishV := child.getPropD "topicPublish"
    if truthy refV && !truthy asyncV && !truthy topicPublishV then
      resolveAndCacheFunction cfg functionDefs fuel (strOf refV) visited path st
    else if truthy refV && truthy asyncV then
      let refName := strOf refV
      let existingProps := removeKeys (spreadFields child) ["ref", "async", "queueName"]
      let funcQueueName := funcQueueNameOf functionDefs refName
      let displayName := getDisplayName functionDefs refName
      let inlineQueueName := child.getPropD "queueName"
      let effectiveQueueName := jsOr inlineQueueName funcQueueName
      let (resolvedProps, errorMetadataLines) :=
        resolveExternalProps cfg.asyncResolver "asyncResolver" (.str refName) effectiveQueueName
      let finalQueueName := jsOr (resolvedProps.getPropD "queueName")
        (jsOr inlineQueueName (jsOr funcQueueName (.str (displayName ++ "_queue"))))
      let metadataLines := mergeMetadataLines
        [.arr errorMetadataLines,
         (getField existingProps "metadata_lines").getD Val.undef,
         resolvedProps.getPropD "metadata_lines"]
      let (childNode, st1) := resolveAndCacheFunction cfg functionDefs fuel refName visited path st
      let nodeFields :=
        [("name", finalQueueName), ("type", Val.str "timer")]
        ++ existingProps ++ spreadFields resolvedProps
        ++ [("queueName", Val.undef)]
        ++ (match metadataLines with | some l => [("metadata_lines", Val.arr l)] | none => [])
        ++ [("children", Val.arr [childNode])]
      (applyLogMetadataLine cfg (.obj nodeFields) [], st1)
    else if truthy topicPublishV then
      let existingProps := removeKeys (spreadFields child) ["ref", "topicName", "topicPublish", "queueName"]
      let topicNameV := child.getPropD "topicName"
      let effectiveTopicName := jsOr topicNameV (.str "unknown topic")
      let inlineQueueName := child.getPropD "queueName"
      let (resolvedProps, errorMetadataLines) :=
        resolveExternalProps cfg.topicPublishResolver "topicPublishResolver" effectiveTopicName inlineQueueName
      let finalQueueName := jsOr (resolvedProps.getPropD "queueName")
        (jsOr inlineQueueName
          (if truthy topicNameV then Val.str (strOf topicNameV ++ "_queue")
           else Val.str "unknown topic"))
      let metadataLines := mergeMetadataLines
        [.arr errorMetadataLines,
         (getField existingProps "metadata_lines").getD Val.undef,
         resolvedProps.getPropD "metadata_lines"]
      let nodeFields :=
        [("name", finalQueueName), ("type", Val.str "topic")]
        ++ existingProps ++ spreadFields resolvedProps
        ++ [("queueName", Val.undef)]
        ++ (match metadataLines with | some l => [("metadata_lines", Val.arr l)] | none => [])
      (applyLogMetadataLine cfg (.obj nodeFields) [], st)
    else
      let typeV := child.getPropD "type"
      let isInlineQueueType := match typeV with
        | .str t => t = "queue" || t = "timer" || t = "topic"
        | _ => false
      if isInlineQueueType then
        match child.getProp "children" with
        | some (.arr childList) =>
          let (childVals, st1) := resolveChildren cfg functionDefs fuel childList visited path st
          (applyLogMetadataLine cfg (.obj (spreadFields child ++ [("children", Val.arr childVals)])) [], st1)
        | _ =>
          (applyLogMetadataLine cfg (.obj (spreadFields child ++ [("children", Val.arr [])])) [], st)
      else
        (child, st)

/-- Children of a node resolved in input order; the source dispatches them
with `Promise.all`, modelled sequentially left to right. -/
def resolveChildren (cfg : Config) (functionDefs : List (String × Val)) :
    Nat → List Val → List String → List String → ResolutionState → List Val × ResolutionState
  | _, [], _, _, st => ([], st)
  | 0, _ :: _, _, _, st => ([], st)
  | fuel + 1, child :: rest, visited, path, st =>
    let (v, st1) := resolveChild cfg functionDefs fuel child visited path st
    let (vs, st2) := resolveChildren cfg functionDefs fuel rest visited path st1
    (v :: vs, st2)
end

/-- `_getFunctionWithCycleCheck(name, visited, path)`: live cycle check
first, then the cache, then on-demand resolution. -/
def getFunctionWithCycleCheck (cfg : Config) (functionDefs : List (String × Val))
    (fuel : Nat) (name : String) (visited path : List String)
    (st : ResolutionState) : Val × ResolutionState :=
  let normalizedName := normalizeName name
  let displayName := getDisplayName functionDefs name
  if normalizedName ∈ visited then
    (createCycleStopper displayName path, st)
  else
    let cacheKey := getFunctionCacheKey normalizedName visited
    match mapGet st.resolvedFunctions cacheKey with
    | some cached =>
      if truthy cached then (cached, st)
      else resolveAndCacheFunction cfg functionDefs fuel name visited path st
    | none => resolveAndCacheFunction cfg functionDefs fuel name visited path st

/-- The filter of `filterEmptyUiServiceMethods`: drop a `ui-service-method`
child whose `children` array is empty or absent, keep every other child. -/
def keepUiServiceMethod (c : Val) : Bool :=
  if (match c.getPropD "type" with | .str t => decide (t = "ui-service-method") | _ => false) then
    match c.getProp "children" with
    | some (.arr l) => !l.isEmpty
    | _ => false
  else true

mutual
/-- `_buildNode(node, visited, path)`, the pass-2 tree materialization. -/
def buildNode (cfg : Config) (functionDefs : List (String × Val)) :
    Nat → Val → List String → List String → ResolutionState → Val × ResolutionState
  | 0, _, _, _, st => (Val.undef, st)
  | fuel + 1, node, visited, path, st =>
    let refV := node.getPropD "ref"
    let asyncV := node.getPropD "async"
    let topicPublishV := node.getPropD "topicPublish"
    if truthy refV && !truthy asyncV && !truthy topicPublishV then
      getFunctionWithCycleCheck cfg functionDefs fuel (strOf refV) visited path st
    else if truthy refV && truthy asyncV then
      let refName := strOf refV
      let queueProps := removeKeys (spreadFields node) ["ref", "async", "queueName"]
      let funcQueueName := funcQueueNameOf functionDefs refName
      let displayName := getDisplayName functionDefs refName
      let inlineQueueName := node.getPropD "queueName"
      let effectiveQueueName := jsOr inlineQueueName funcQueueName
      let (resolvedProps, errorMetadataLines) :=
        resolveExternalProps cfg.asyncResolver "asyncResolver" (.str refName) effectiveQueueName
      let finalQueueName := jsOr (resolvedProps.getPropD "queueName")
        (jsOr inlineQueueName (jsOr funcQueueName (.str (displayName ++ "_queue"))))
      let metadataLines := mergeMetadataLines
        [.arr errorMetadataLines,
         (getField queueProps "metadata_lines").getD Val.undef,
         resolvedProps.getPropD "metadata_lines"]
      let (childNode, st1) := getFunctionWithCycleCheck cfg functionDefs fuel refName visited path st
      let nodeFields :=
        [("name", finalQueueName), ("type", Val.str "timer")]
        ++ queueProps ++ spreadFields resolvedProps
        ++ (match metadataLines with | some l => [("metadata_lines", Val.arr l)] | none => [])
        ++ [("children", Val.arr [childNode])]
      (applyLogMetadataLine cfg (.obj nodeFields) [], st1)
    else if truthy topicPublishV then
      let queueProps := removeKeys (spreadFields node) ["ref", "topicName", "topicPublish", "queueName"]
      let topicNameV := node.getPropD "topicName"
      let effectiveTopicName := jsOr topicNameV (.str "unknown topic")
      let inlineQueueName := node.getPropD "queueName"
      let (resolvedProps, errorMetadataLines) :=
        resolveExternalProps cfg.topicPublishResolver "topicPublishResolver" effectiveTopicName inlineQueueName
      let finalQueueName := jsOr (resolvedProps.getPropD "queueName")
        (jsOr inlineQueueName
          (if truthy topicNameV then Val.str (strOf topicNameV ++ "_queue")
           else Val.str "unknown topic"))
      let metadataLines := mergeMetadataLines
        [.arr errorMetadataLines,
         (getField queueProps "metadata_lines").getD Val.undef,
         resolvedProps.getPropD "metadata_lines"]
      let nodeFields :=
        [("name", finalQueueName), ("type", Val.str "topic")]
        ++ queueProps ++ spreadFields resolvedProps
        ++ (match metadataLines with | some l => [("metadata_lines", Val.arr l)] | none => [])
      (applyLogMetadataLine cfg (.obj nodeFields) [], st)
    else
      match node.getProp "children" with
      | some (.arr childList) =>
        let typeV := node.getPropD "type"
        let tracked := (match typeV with | .str t => t = "function" | _ => false)
                       && truthy (node.getPropD "name")
        let nodeName := strOf (node.getPropD "name")
        if tracked && decide (normalizeName nodeName ∈ visited) then
          (createCycleStopper nodeName path, st)
        else
          let newVisited := if tracked then setAdd visited (normalizeName nodeName) else visited
          let newPath := if tracked then path ++ [nodeName] else path
          let (resolvedChildren, st1) := buildNodes cfg functionDefs fuel childList newVisited newPath st
          let keptChildren := resolvedChildren.filter (fun c => match c with | .null => false | _ => true)
          let isUiServices := match typeV with | .str t => t = "ui-services" | _ => false
          let filteredChildren :=
            if cfg.filterEmptyUiServiceMethods && isUiServices then
              keptChildren.filter keepUiServiceMethod
            else keptChildren
          if cfg.filterEmptyUiServices && isUiServices && filteredChildren.isEmpty then
            (Val.null, st1)
          else
            (applyLogMetadataLine cfg (.obj (spreadFields node ++ [("children", Val.arr filteredChildren)])) [], st1)
      | _ => (applyLogMetadataLine cfg node [], st)

/-- Pass-2 children, resolved in input order (`Promise.all`, modelled
sequentially). -/
def buildNodes (cfg : Config) (functionDefs : List (String × Val)) :
    Nat → List Val → List String → List String → ResolutionState → List Val × ResolutionState
  | _, [], _, _, st => ([], st)
  | 0, _ :: _, _, _, st => ([], st)
  | fuel + 1, node :: rest, visited, path, st =>
    let (v, st1) := buildNode cfg functionDefs fuel node visited path st
    let (vs, st2) := buildNodes cfg functionDefs fuel rest visited path st1
    (v :: vs, st2)
end

/-- `_preResolveAllFunctions`: resolve every registry entry under the empty
visited context, in registry order. -/
def preResolveAllFunctions (cfg : Config) (functionDefs : List (String × Val))
    (fuel : Nat) : List (String × Val) → ResolutionState → ResolutionState
  | [], st => st
  | (name, _) :: rest, st =>
    let cacheKey := getFunctionCacheKey name []
    let st1 := if mapHas st.resolvedFunctions cacheKey then st
               else (resolveAndCacheFunction cfg functionDefs fuel name [] [] st).2
    preResolveAllFunctions cfg functionDefs fuel rest st1

/-- `build(rootStructure)`: clear the per-build state, pre-resolve the
registry (pass 1), then materialize the root tree (pass 2). -/
def TreeBuilder.build (b : TreeBuilder) (fuel : Nat) (rootStructure : Val) : Val × TreeBuilder :=
  let st0 : ResolutionState := { resolvedFunctions := [], inFlight := [] }
  let st1 := preResolveAllFunctions b.config b.functionDefs fuel b.functionDefs st0
  let (tree, st2) := buildNode b.config b.functionDefs fuel rootStructure [] [] st1
  (tree, { b with resolvedFunctions := st2.resolvedFunctions, inFlight := st2.inFlight })

/-- Index into a node's `children` array, `undefined` when out of range or
absent; used to navigate concrete output trees. -/
def childAt (v : Val) (i : Nat) : Val :=
  match v.getProp "children" with
  | some (.arr l) => l.getD i Val.undef
  | _ => Val.undef

/-- Spec-side reading of the queue-name priority chain: the first
JavaScript-truthy (defined, non-null and non-empty) candidate wins, else
the fallback.  Stated from the spec's words for comparison with the
engine's `jsOr` chain. -/
def specQueuePriority : List Val → Val → Val
  | [], fallback => fallback
  | c :: rest, fallback => if truthy c then c else specQueuePriority rest fallback

/-- Registry with one function `func` whose registry queue is `FUNC.Q`. -/
def queueBuilder : TreeBuilder :=
  ({} : TreeBuilder).defineFunction "func" [] (.obj [("queueName", .str "FUNC.Q")])

/-- Root tree with a single async reference to `func` carrying the given
inline queue name. -/
def asyncApp (q : Val) : Val :=
  .obj [("name", .str "app"), ("type", .str "app"),
        ("children", .arr [TreeBuilder.asyncRef "func" q []])]

/-- `queueBuilder` with an async resolver returning `{queueName: "R.Q"}`. -/
def resolverQueueBuilder : TreeBuilder :=
  queueBuilder.setAsyncResolver (fun _ _ => .ok (.obj [("queueName", .str "R.Q")]))

/-- Registry with the cycle `A → B → C → D → E → A`. -/
def chainBuilder : TreeBuilder :=
  let b := ({} : TreeBuilder).defineFunction "A" [TreeBuilder.ref "B"] (.obj [])
  let b := b.defineFunction "B" [TreeBuilder.ref "C"] (.obj [])
  let b := b.defineFunction "C" [TreeBuilder.ref "D"] (.obj [])
  let b := b.defineFunction "D" [TreeBuilder.ref "E"] (.obj [])
  b.defineFunction "E" [TreeBuilder.ref "A"] (.obj [])

/-- Root tree referencing the head of the chain. -/
def chainApp : Val :=
  .obj [("name", .str "app"), ("type", .str "app"),
        ("children", .arr [TreeBuilder.ref "A"])]

/-- Registry with a single resolvable function `good`. -/
def missingRefBuilder : TreeBuilder :=
  ({} : TreeBuilder).defineFunction "good" [] (.obj [])

/-- Root tree with one dangling reference next to one resolvable one. -/
def missingRefApp : Val :=
  .obj [("name", .str "app"), ("type", .str "app"),
        ("children", .arr [TreeBuilder.ref "missing", TreeBuilder.ref "good"])]

/-- `missingRefBuilder` configured with `unresolvedSeverity: "error"`. -/
def errorSeverityBuilder : TreeBuilder :=
  { missingRefBuilder with
    config := { missingRefBuilder.config with unresolvedSeverity := "error" } }

/-- Registry with an async target and a sync sibling, plus an async
resolver that always throws. -/
def throwingResolverBuilder : TreeBuilder :=
  let b := ({} : TreeBuilder).defineFunction "af" [] (.obj [("queueName", .str "AQ")])
  let b := b.defineFunction "good" [] (.obj [])
  b.setAsyncResolver (fun _ _ => .thrown "boom")

/-- Root tree exercising the throwing resolver alongside a healthy branch. -/
def throwingResolverApp : Val :=
  .obj [("name", .str "app"), ("type", .str "app"),
        ("children", .arr [TreeBuilder.asyncRef "af" Val.undef [], TreeBuilder.ref "good"])]

/-- Root tree with a `ui-services` group containing only empty
`ui-service-method` children (one with no `children` key, one with `[]`). -/
def uiServicesApp : Val :=
  .obj [("name", .str "app"), ("type", .str "app"),
        ("children", .arr [.obj [("name", .str "SG"), ("type", .str "ui-services"),
          ("children", .arr
            [.obj [("name", .str "m1"), ("type", .str "ui-service-method")],
             .obj [("name", .str "m2"), ("type", .str "ui-service-method"),
                   ("children", .arr [])]])]])]

/-- Builder with only `filterEmptyUiServiceMethods` enabled. -/
def methodFilterBuilder : TreeBuilder :=
  { config := { filterEmptyUiServiceMethods := true } }

/-- Builder with both empty-node filters enabled. -/
def bothFiltersBuilder : TreeBuilder :=
  { config := { filterEmptyUiServiceMethods := true, filterEmptyUiServices := true } }

/-- `missingRefBuilder` with `logNodeTypes` covering both the diagnostic
severity and ordinary function nodes. -/
def logTypesBuilder : TreeBuilder :=
  { missingRefBuilder with
    config := { missingRefBuilder.config with logNodeTypes := some ["warning", "function"] } }

/-- `queueBuilder` with resolvers that always return `null` / `undefined`. -/
def nullResolverBuilder : TreeBuilder :=
  (queueBuilder.setAsyncResolver (fun _ _ => .ok .null)).setTopicPublishResolver
    (fun _ _ => .ok Val.undef)

/-- The diagnostic node synthesized by the unresolved-reference branch,
stated once for reuse in the theorems below. -/
def unresolvedNodeFor (severity name : String) : Val :=
  .obj [("name", .str ("dependency to " ++ name ++
          " could not be resolved so the tree may be incomplete")),
        ("type", .str severity),
        ("_unresolvedRef", .str name)]

/-- The pass-2 null filter (`children.filter(child => child !== null)`),
named for use in the theorems about the filtering rules. -/
def nonNullChildren (cs : List Val) : List Val :=
  cs.filter (fun c => match c with | .null => false | _ => true)

theorem getField_append (l1 l2 : List (String × Val)) (key : String) :
    getField (l1 ++ l2) key =
      match getField l2 key with
      | some w => some w
      | none => getField l1 key := by
  induction l1 with
  | nil =>
    simp only [List.nil_append, getField]
    cases getField l2 key <;> rfl
  | cons p rest ih =>
    obtain ⟨k, v⟩ := p
    simp only [List.cons_append, getField]
    rw [List.append_eq, ih]
    cases getField l2 key <;> cases getField rest key <;> simp

theorem mapGet_mapSet_self (m : List (String × Val)) (key : String) (v : Val) :
    mapGet (mapSet m key v) key = some v := by
  induction m with
  | nil => simp [mapSet, mapGet]
  | cons p rest ih =>
    obtain ⟨k, w⟩ := p
    by_cases h : k = key <;> simp [mapSet, mapGet, h, ih]

theorem getProp_applyLogMetadataLine (cfg : Config) (node : Val)
    (extraData : List (String × Val)) (key : String) (h : key ≠ "metadata_lines") :
    (applyLogMetadataLine cfg node extraData).getProp key = node.getProp key := by
  have h' : "metadata_lines" ≠ key := fun e => h e.symm
  unfold applyLogMetadataLine
  cases cfg.logNodeTypes with
  | none => rfl
  | some ts =>
    simp only
    split
    · rfl
    · split
      · rfl
      · cases node <;> simp [Val.getProp, getField_append, getField, h', spreadFields]

theorem hasProp_applyLogMetadataLine (cfg : Config) (node : Val)
    (extraData : List (String × Val)) (key : String) (h : key ≠ "metadata_lines") :
    (applyLogMetadataLine cfg node extraData).hasProp key = node.hasProp key := by
  have h' : "metadata_lines" ≠ key := fun e => h e.symm
  unfold applyLogMetadataLine
  cases cfg.logNodeTypes with
  | none => rfl
  | some ts =>
    simp only
    split
    · rfl
    · split
      · rfl
      · cases node <;> simp [Val.hasProp, spreadFields, h']

theorem any_eq_false_of_getField_none (fields : List (String × Val)) (key : String)
    (h : getField fields key = none) :
    fields.any (fun p => decide (p.1 = key)) = false := by
  induction fields with
  | nil => rfl
  | cons p rest ih =>
    obtain ⟨k, v⟩ := p
    simp only [getField] at h
    rcases hr : getField rest key with _ | w
    · rw [hr] at h
      have hk : ¬k = key := by
        intro e
        rw [if_pos e] at h
        exact Option.noConfusion h
      simp [hk, ih hr]
    · rw [hr] at h
      exact Option.noConfusion h

theorem any_removeKeys (fields : List (String × Val)) (keys : List String) (key : String)
    (h : key ∈ keys) :
    (removeKeys fields keys).any (fun p => decide (p.1 = key)) = false := by
  rw [List.any_eq_false]
  intro p hp
  have hmem := List.mem_filter.mp hp
  have hnk : p.1 ∉ keys := by simpa using hmem.2
  simp only [decide_eq_true_eq]
  intro e
  exact hnk (e ▸ h)

theorem resolveAndCacheFunction_unresolved (cfg : Config) (functionDefs : List (String × Val))
    (fuel : Nat) (name : String) (visited path : List String) (st : ResolutionState)
    (hvis : normalizeName name ∉ visited)
    (hcache : mapHas st.resolvedFunctions (getFunctionCacheKey (normalizeName name) visited) = false)
    (hflight : getFunctionCacheKey (normalizeName name) visited ∉ st.inFlight)
    (hdef : mapGet functionDefs (normalizeName name) = none) :
    resolveAndCacheFunction cfg functionDefs (fuel + 1) name visited path st =
      (unresolvedNodeFor cfg.unresolvedSeverity name,
       { st with resolvedFunctions := mapSet st.resolvedFunctions (getFunctionCacheKey (normalizeName name) visited) (unresolvedNodeFor cfg.unresolvedSeverity name) }) := by
  simp only [resolveAndCacheFunction, unresolvedNodeFor]
  rw [if_neg hvis, if_neg (by simp [hcache]), if_neg hflight, hdef]

theorem resolveAndCacheFunction_cache_hit (cfg : Config) (functionDefs : List (String × Val))
    (fuel : Nat) (name : String) (visited path : List String) (st : ResolutionState) (node : Val)
    (hvis : normalizeName name ∉ visited)
    (hcache : mapGet st.resolvedFunctions (getFunctionCacheKey (normalizeName name) visited) = some node) :
    resolveAndCacheFunction cfg functionDefs (fuel + 1) name visited path st = (node, st) := by
  simp only [resolveAndCacheFunction]
  rw [if_neg hvis, if_pos (by simp [mapHas, hcache]), hcache]
  rfl

theorem resolveAndCacheFunction_caches (cfg : Config) (functionDefs : List (String × Val))
    (fuel : Nat) (name : String) (visited path : List String) (st : ResolutionState)
    (node : Val) (st1 : ResolutionState)
    (hvis : normalizeName name ∉ visited)
    (hflight : getFunctionCacheKey (normalizeName name) visited ∉ st.inFlight)
    (hrun : resolveAndCacheFunction cfg functionDefs (fuel + 1) name visited path st = (node, st1)) :
    mapGet st1.resolvedFunctions (getFunctionCacheKey (normalizeName name) visited) = some node := by
  simp only [resolveAndCacheFunction] at hrun
  rw [if_neg hvis] at hrun
  by_cases hc : mapHas st.resolvedFunctions (getFunctionCacheKey (normalizeName name) visited) = true
  · rw [if_pos hc] at hrun
    rcases hmg : mapGet st.resolvedFunctions (getFunctionCacheKey (normalizeName name) visited) with _ | v
    · rw [mapHas, hmg] at hc
      exact Bool.noConfusion hc
    · rw [hmg] at hrun
      have h1 : v = node := congrArg Prod.fst hrun
      have h2 : st = st1 := congrArg Prod.snd hrun
      rw [← h2, hmg, h1]
  · rw [if_neg hc, if_neg hflight] at hrun
    rcases hdef : mapGet functionDefs (normalizeName name) with _ | fnDef
    · rw [hdef] at hrun
      have h1 := congrArg Prod.fst hrun
      have h2 := congrArg Prod.snd hrun
      simp only at h1 h2
      rw [← h2, ← h1]
      exact mapGet_mapSet_self _ _ _
    · rw [hdef] at hrun
      simp only at hrun
      split at hrun <;>
        (try split at hrun) <;>
        · rw [Prod.mk.injEq] at hrun
          obtain ⟨h1, h2⟩ := hrun
          rw [← h2, ← h1]
          exact mapGet_mapSet_self _ _ _

theorem lowerChar_idem (c : Char) : lowerChar (lowerChar c) = lowerChar c := by
  unfold lowerChar
  split
  · rename_i h
    obtain ⟨hA, hZ⟩ := h
    have hZn : c.toNat ≤ 90 := by
      simp only [Char.le_def, UInt32.le_def] at hZ
      exact hZ
    have hAn : 65 ≤ c.toNat := by
      simp only [Char.le_def, UInt32.le_def] at hA
      exact hA
    have hv : (c.toNat + 32).isValidChar := by
      left
      omega
    have h3 : (Char.ofNat (c.toNat + 32)).toNat = c.toNat + 32 := by
      unfold Char.ofNat
      rw [dif_pos hv]
      rfl
    rw [if_neg]
    intro hcon
    obtain ⟨hA2, hZ2⟩ := hcon
    have hZ2n : (Char.ofNat (c.toNat + 32)).toNat ≤ 90 := by
      simp only [Char.le_def, UInt32.le_def] at hZ2
      exact hZ2
    rw [h3] at hZ2n
    omega
  · rfl

theorem lowerStr_idem (s : String) : lowerStr (lowerStr s) = lowerStr s := by
  have hmap : ∀ l : List Char, List.map (lowerChar ∘ lowerChar) l = List.map lowerChar l := by
    intro l
    induction l with
    | nil => rfl
    | cons a t ih => simp [Function.comp, lowerChar_idem, ih]
  simp [lowerStr, List.map_map, hmap]

/-- C1: a resolution request for a name already in the visited set returns a
cycle-stopper node — `type` `dupe-stopper`, `name`
`loop detected stopping (<displayName>)`, `_cycleAt` the display name,
`_path` the incoming name path with the display name appended — and leaves
the state (in particular the `resolvedFunctions` cache) untouched; the same
holds for the pass-2 cache lookup and for a tracked pass-2 function node
whose normalized name is in the live visited set; the chain
`A → B → C → D → E → A` produces a stopper whose `_path` is
`["A","B","C","D","E","A"]`. -/
theorem cycle_stopper_semantics :
    (∀ (cfg : Config) (functionDefs : List (String × Val)) (fuel : Nat)
       (name : String) (visited path : List String) (st : ResolutionState),
       normalizeName name ∈ visited →
       resolveAndCacheFunction cfg functionDefs (fuel + 1) name visited path st =
         (createCycleStopper (getDisplayName functionDefs name) path, st))
    ∧ (∀ (cfg : Config) (functionDefs : List (String × Val)) (fuel : Nat)
         (name : String) (visited path : List String) (st : ResolutionState),
         normalizeName name ∈ visited →
         getFunctionWithCycleCheck cfg functionDefs fuel name visited path st =
           (createCycleStopper (getDisplayName functionDefs name) path, st))
    ∧ (∀ (displayName : String) (path : List String),
         (createCycleStopper displayName path).getProp "type" = some (.str "dupe-stopper")
         ∧ (createCycleStopper displayName path).getProp "name" =
             some (.str ("loop detected stopping (" ++ displayName ++ ")"))
         ∧ (createCycleStopper displayName path).getProp "_cycleAt" = some (.str displayName)
         ∧ (createCycleStopper displayName path).getProp "_path" =
             some (.arr ((path ++ [displayName]).map .str)))
    ∧ (∀ (cfg : Config) (functionDefs : List (String × Val)) (fuel : Nat)
         (node : Val) (visited path : List String) (st : ResolutionState)
         (childList : List Val),
         truthy (node.getPropD "ref") = false →
         truthy (node.getPropD "topicPublish") = false →
         node.getProp "children" = some (.arr childList) →
         node.getPropD "type" = .str "function" →
         truthy (node.getPropD "name") = true →
         normalizeName (strOf (node.getPropD "name")) ∈ visited →
         buildNode cfg functionDefs (fuel + 1) node visited path st =
           (createCycleStopper (strOf (node.getPropD "name")) path, st))
    ∧ (childAt (childAt (childAt (childAt (childAt (childAt
         (chainBuilder.build 30 chainApp).1 0) 0) 0) 0) 0) 0 =
         createCycleStopper "A" ["A", "B", "C", "D", "E"]
       ∧ (createCycleStopper "A" ["A", "B", "C", "D", "E"]).getProp "_path" =
           some (.arr [.str "A", .str "B", .str "C", .str "D", .str "E", .str "A"])) := by
  refine ⟨?_, ?_, ?_, ?_, rfl, rfl⟩
  · intro cfg functionDefs fuel name visited path st h
    simp only [resolveAndCacheFunction]
    rw [if_pos h]
  · intro cfg functionDefs fuel name visited path st h
    unfold getFunctionWithCycleCheck
    simp only
    rw [if_pos h]
  · intro displayName path
    exact ⟨rfl, rfl, rfl, rfl⟩
  · intro cfg functionDefs fuel node visited path st childList href htp hkids htype hname hvis
    simp only [buildNode]
    simp [href, htp, hkids, htype, hname, hvis]

/-- C1 witness: the general cycle branch applied at a concrete input. -/
theorem cycle_stopper_semantics_witness :
    normalizeName "a" ∈ ["a"]
    ∧ resolveAndCacheFunction {} [] 1 "a" ["a"] [] ⟨[], []⟩ =
        (createCycleStopper (getDisplayName [] "a") [], ⟨[], []⟩) :=
  ⟨by decide, cycle_stopper_semantics.1 {} [] 0 "a" ["a"] [] ⟨[], []⟩ (by decide)⟩

/-- C4: a reference whose normalized name is absent from the registry (and
not already handled by the cycle, cache or in-flight branches) synthesizes
the diagnostic node `dependency to <name> could not be resolved so the tree
may be incomplete` typed with the configured `unresolvedSeverity`
(`warning` by default, `error` when so configured), carrying
`_unresolvedRef`, and caches it; the model is total, so the condition never
aborts a build, and in the concrete run below the dangling reference and
its healthy sibling both materialize. -/
theorem unresolved_reference_diagnostic :
    (∀ (cfg : Config) (functionDefs : List (String × Val)) (fuel : Nat)
       (name : String) (visited path : List String) (st : ResolutionState),
       normalizeName name ∉ visited →
       mapHas st.resolvedFunctions (getFunctionCacheKey (normalizeName name) visited) = false →
       getFunctionCacheKey (normalizeName name) visited ∉ st.inFlight →
       mapGet functionDefs (normalizeName name) = none →
       resolveAndCacheFunction cfg functionDefs (fuel + 1) name visited path st =
         (unresolvedNodeFor cfg.unresolvedSeverity name,
          { st with resolvedFunctions := mapSet st.resolvedFunctions (getFunctionCacheKey (normalizeName name) visited) (unresolvedNodeFor cfg.unresolvedSeverity name) }))
    ∧ ({} : Config).unresolvedSeverity = "warning"
    ∧ (childAt (missingRefBuilder.build 20 missingRefApp).1 0).getProp "type" = some (.str "warning")
    ∧ (childAt (missingRefBuilder.build 20 missingRefApp).1 0).getProp "name" =
        some (.str "dependency to missing could not be resolved so the tree may be incomplete")
    ∧ (childAt (missingRefBuilder.build 20 missingRefApp).1 0).getProp "_unresolvedRef" =
        some (.str "missing")
    ∧ (childAt (errorSeverityBuilder.build 20 missingRefApp).1 0).getProp "type" = some (.str "error")
    ∧ (childAt (missingRefBuilder.build 20 missingRefApp).1 1).getProp "type" = some (.str "function")
    ∧ (childAt (missingRefBuilder.build 20 missingRefApp).1 1).getProp "name" = some (.str "good") :=
  ⟨fun cfg functionDefs fuel name visited path st hvis hcache hflight hdef =>
     resolveAndCacheFunction_unresolved cfg functionDefs fuel name visited path st hvis hcache hflight hdef,
   rfl, rfl, rfl, rfl, rfl, rfl, rfl⟩

/-- C4 witness: the general unresolved branch applied at a concrete input. -/
theorem unresolved_reference_diagnostic_witness :
    (normalizeName "gone" ∉ ([] : List String)
     ∧ mapHas (⟨[], []⟩ : ResolutionState).resolvedFunctions (getFunctionCacheKey (normalizeName "gone") []) = false
     ∧ getFunctionCacheKey (normalizeName "gone") [] ∉ (⟨[], []⟩ : ResolutionState).inFlight
     ∧ mapGet [] (normalizeName "gone") = none)
    ∧ resolveAndCacheFunction {} [] 3 "gone" [] [] ⟨[], []⟩ =
        (unresolvedNodeFor ({} : Config).unresolvedSeverity "gone",
         { (⟨[], []⟩ : ResolutionState) with resolvedFunctions := mapSet [] (getFunctionCacheKey (normalizeName "gone") []) (unresolvedNodeFor ({} : Config).unresolvedSeverity "gone") }) :=
  ⟨⟨by decide, rfl, by decide, rfl⟩,
   unresolved_reference_diagnostic.1 {} [] 2 "gone" [] [] ⟨[], []⟩ (by decide) rfl (by decide) rfl⟩

/-- C6: a completed resolution of a function name under a visited-set
context is cached under `normalize(name) + "::" + sortedJoin(visitedSet)`
(the conjunct below also records that normalization is idempotent, so the
key the code computes from the normalized name has exactly that shape), and
any later resolution of the same name under the same context returns the
identical cached node with no state change — for every configuration,
registry, path and fuel of the second call, so resolver side effects cannot
run again for an already-resolved cache key.  The in-flight promise map of
the source is the concurrent counterpart of this cache hit; under the
sequential semantics the in-flight branch is unreachable, which the
`∉ inFlight` hypothesis reflects. -/
theorem resolution_cache_idempotent (cfg : Config)
    (functionDefs : List (String × Val)) (fuel : Nat) (name : String)
    (visited path : List String) (st : ResolutionState) (node : Val) (st1 : ResolutionState)
    (hvis : normalizeName name ∉ visited)
    (hflight : getFunctionCacheKey (normalizeName name) visited ∉ st.inFlight)
    (hrun : resolveAndCacheFunction cfg functionDefs (fuel + 1) name visited path st = (node, st1)) :
    getFunctionCacheKey (normalizeName name) visited =
      normalizeName name ++ "::" ++ String.intercalate "|" (sortStrings visited)
    ∧ mapGet st1.resolvedFunctions (getFunctionCacheKey (normalizeName name) visited) = some node
    ∧ ∀ (cfg2 : Config) (functionDefs2 : List (String × Val)) (fuel2 : Nat) (path2 : List String),
        resolveAndCacheFunction cfg2 functionDefs2 (fuel2 + 1) name visited path2 st1 = (node, st1) := by
  have hcached := resolveAndCacheFunction_caches cfg functionDefs fuel name visited path st node st1 hvis hflight hrun
  refine ⟨?_, hcached, ?_⟩
  · unfold getFunctionCacheKey normalizeName
    rw [lowerStr_idem]
  · intro cfg2 functionDefs2 fuel2 path2
    exact resolveAndCacheFunction_cache_hit cfg2 functionDefs2 fuel2 name visited path2 st1 node hvis hcached

/-- C6 witness: resolving `func` in `queueBuilder` under the empty context
and then re-resolving it returns the identical node and state. -/
theorem resolution_cache_idempotent_witness :
    (normalizeName "func" ∉ ([] : List String)
     ∧ getFunctionCacheKey (normalizeName "func") [] ∉ (⟨[], []⟩ : ResolutionState).inFlight)
    ∧ mapGet (resolveAndCacheFunction {} queueBuilder.functionDefs 5 "func" [] [] ⟨[], []⟩).2.resolvedFunctions
        (getFunctionCacheKey (normalizeName "func") []) =
        some (resolveAndCacheFunction {} queueBuilder.functionDefs 5 "func" [] [] ⟨[], []⟩).1
    ∧ resolveAndCacheFunction {} queueBuilder.functionDefs 9 "func" [] []
        (resolveAndCacheFunction {} queueBuilder.functionDefs 5 "func" [] [] ⟨[], []⟩).2 =
        ((resolveAndCacheFunction {} queueBuilder.functionDefs 5 "func" [] [] ⟨[], []⟩).1,
         (resolveAndCacheFunction {} queueBuilder.functionDefs 5 "func" [] [] ⟨[], []⟩).2) :=
  have h := resolution_cache_idempotent {} queueBuilder.functionDefs 4 "func" [] [] ⟨[], []⟩
    (resolveAndCacheFunction {} queueBuilder.functionDefs 5 "func" [] [] ⟨[], []⟩).1
    (resolveAndCacheFunction {} queueBuilder.functionDefs 5 "func" [] [] ⟨[], []⟩).2
    (by decide) (by decide) rfl
  ⟨⟨by decide, by decide⟩, h.2.1, h.2.2 {} queueBuilder.functionDefs 8 []⟩

/-- C10: the node synthesized for an unresolved reference is returned and
cached without passing through the Logs-annotation step, so it never
carries a `metadata_lines` property even when its severity type is listed
in `logNodeTypes`; concretely, with `logNodeTypes = ["warning","function"]`
the dangling-reference child has no metadata lines while its sibling
function node receives the clickable Logs line. -/
theorem unresolved_node_skips_logs :
    (∀ (cfg : Config) (functionDefs : List (String × Val)) (fuel : Nat)
       (name : String) (visited path : List String) (st : ResolutionState),
       normalizeName name ∉ visited →
       mapHas st.resolvedFunctions (getFunctionCacheKey (normalizeName name) visited) = false →
       getFunctionCacheKey (normalizeName name) visited ∉ st.inFlight →
       mapGet functionDefs (normalizeName name) = none →
       ((resolveAndCacheFunction cfg functionDefs (fuel + 1) name visited path st).1).hasProp
         "metadata_lines" = false)
    ∧ (childAt (logTypesBuilder.build 20 missingRefApp).1 0).hasProp "metadata_lines" = false
    ∧ (childAt (logTypesBuilder.build 20 missingRefApp).1 0).getProp "type" = some (.str "warning")
    ∧ logTypesBuilder.config.logNodeTypes = some ["warning", "function"]
    ∧ (childAt (logTypesBuilder.build 20 missingRefApp).1 1).getProp "metadata_lines" =
        some (.arr [.obj [("text", .str "Logs"), ("clickable", .bool true),
          ("data", .obj [("name", .str "good"), ("type", .str "function")])]]) := by
  refine ⟨?_, rfl, rfl, rfl, rfl⟩
  intro cfg functionDefs fuel name visited path st hvis hcache hflight hdef
  rw [resolveAndCacheFunction_unresolved cfg functionDefs fuel name visited path st hvis hcache hflight hdef]
  rfl

/-- C10 witness: the general no-Logs fact applied at a concrete input. -/
theorem unresolved_node_skips_logs_witness :
    (normalizeName "gone" ∉ ([] : List String)
     ∧ mapHas (⟨[], []⟩ : ResolutionState).resolvedFunctions (getFunctionCacheKey (normalizeName "gone") []) = false
     ∧ getFunctionCacheKey (normalizeName "gone") [] ∉ (⟨[], []⟩ : ResolutionState).inFlight
     ∧ mapGet [] (normalizeName "gone") = none)
    ∧ ((resolveAndCacheFunction { logNodeTypes := some ["warning"] } [] 3 "gone" [] [] ⟨[], []⟩).1).hasProp
        "metadata_lines" = false :=
  ⟨⟨by decide, rfl, by decide, rfl⟩,
   unresolved_node_skips_logs.1 { logNodeTypes := some ["warning"] } [] 2 "gone" [] [] ⟨[], []⟩
     (by decide) rfl (by decide) rfl⟩

/-- C7: `build()` starts from freshly cleared `resolvedFunctions` and
`inFlightResolutions` state and never touches the registry or the
configuration, so the output tree depends only on the registry, the
configuration and the root structure: two builders agreeing on those
produce identical trees whatever stale per-build state they carry, and a
second sequential `build()` on the instance returned by a first one yields
exactly the tree a fresh build would. -/
theorem build_state_isolation :
    (∀ (b : TreeBuilder) (fuel : Nat) (root : Val),
       (b.build fuel root).2.functionDefs = b.functionDefs
       ∧ (b.build fuel root).2.config = b.config)
    ∧ (∀ (b b2 : TreeBuilder) (fuel : Nat) (root : Val),
       b2.functionDefs = b.functionDefs → b2.config = b.config →
       (b2.build fuel root).1 = (b.build fuel root).1)
    ∧ (∀ (b : TreeBuilder) (fuel : Nat) (r1 r2 : Val),
       ((b.build fuel r1).2.build fuel r2).1 = (b.build fuel r2).1) := by
  have h1 : ∀ (b : TreeBuilder) (fuel : Nat) (root : Val),
      (b.build fuel root).2.functionDefs = b.functionDefs
      ∧ (b.build fuel root).2.config = b.config := by
    intro b fuel root
    unfold TreeBuilder.build
    rcases hb : buildNode b.config b.functionDefs fuel root [] []
      (preResolveAllFunctions b.config b.functionDefs fuel b.functionDefs ⟨[], []⟩) with ⟨tree, st2⟩
    simp [hb]
  have h2 : ∀ (b b2 : TreeBuilder) (fuel : Nat) (root : Val),
      b2.functionDefs = b.functionDefs → b2.config = b.config →
      (b2.build fuel root).1 = (b.build fuel root).1 := by
    intro b b2 fuel root hd hc
    unfold TreeBuilder.build
    rw [hd, hc]
  refine ⟨h1, h2, ?_⟩
  intro b fuel r1 r2
  exact h2 b ((b.build fuel r1).2) fuel r2 (h1 b fuel r1).1 (h1 b fuel r1).2

/-- C7 witness: a builder carrying stale per-build state produces the same
tree as the clean builder with the same registry and configuration. -/
theorem build_state_isolation_witness :
    (({ queueBuilder with resolvedFunctions := [("junk", Val.null)], inFlight := ["junk"] } : TreeBuilder).functionDefs = queueBuilder.functionDefs
     ∧ ({ queueBuilder with resolvedFunctions := [("junk", Val.null)], inFlight := ["junk"] } : TreeBuilder).config = queueBuilder.config)
    ∧ (({ queueBuilder with resolvedFunctions := [("junk", Val.null)], inFlight := ["junk"] } : TreeBuilder).build 10 (asyncApp Val.undef)).1 =
        (queueBuilder.build 10 (asyncApp Val.undef)).1 :=
  ⟨⟨rfl, rfl⟩,
   build_state_isolation.2.1 queueBuilder
     { queueBuilder with resolvedFunctions := [("junk", Val.null)], inFlight := ["junk"] }
     10 (asyncApp Val.undef) rfl rfl⟩

/-- C8: with `filterEmptyUiServiceMethods` on, the children of a
`ui-services` node are exactly the null-filtered resolved children further
filtered by `keepUiServiceMethod`, which drops precisely the
`ui-service-method` children whose `children` array is empty or absent and
keeps every non-method child; with `filterEmptyUiServices` also on, a
`ui-services` node whose filtered children are empty resolves to `null`
(which the parent's null filter then omits); both flags default to off.
The concrete runs show the spec scenario: with no flags the group keeps its
two empty methods, with the first flag it remains with zero children, and
with both flags it disappears from the parent. -/
theorem ui_services_filtering :
    (∀ c : Val, keepUiServiceMethod c = true ↔
       (c.getPropD "type" ≠ .str "ui-service-method"
        ∨ ∃ l, c.getProp "children" = some (.arr l) ∧ l ≠ []))
    ∧ (∀ (cfg : Config) (functionDefs : List (String × Val)) (fuel : Nat)
         (node : Val) (visited path : List String) (st : ResolutionState)
         (childList resolvedCs : List Val) (st1 : ResolutionState),
         truthy (node.getPropD "ref") = false →
         truthy (node.getPropD "topicPublish") = false →
         node.getPropD "type" = .str "ui-services" →
         node.getProp "children" = some (.arr childList) →
         cfg.filterEmptyUiServiceMethods = true →
         buildNodes cfg functionDefs fuel childList visited path st = (resolvedCs, st1) →
         buildNode cfg functionDefs (fuel + 1) node visited path st =
           (if cfg.filterEmptyUiServices
               && ((nonNullChildren resolvedCs).filter keepUiServiceMethod).isEmpty
            then (Val.null, st1)
            else (applyLogMetadataLine cfg
              (.obj (spreadFields node ++
                [("children", .arr ((nonNullChildren resolvedCs).filter keepUiServiceMethod))])) [],
              st1)))
    ∧ ({} : Config).filterEmptyUiServiceMethods = false
    ∧ ({} : Config).filterEmptyUiServices = false
    ∧ (match (childAt (({} : TreeBuilder).build 20 uiServicesApp).1 0).getProp "children" with
        | some (.arr l) => l.length
        | _ => 0) = 2
    ∧ (childAt (methodFilterBuilder.build 20 uiServicesApp).1 0).getProp "name" = some (.str "SG")
    ∧ (childAt (methodFilterBuilder.build 20 uiServicesApp).1 0).getProp "children" = some (.arr [])
    ∧ (bothFiltersBuilder.build 20 uiServicesApp).1.getProp "children" = some (.arr []) := by
  refine ⟨?_, ?_, rfl, rfl, rfl, rfl, rfl, rfl⟩
  · intro c
    unfold keepUiServiceMethod
    have hiff : ((match c.getProp "children" with
        | some (Val.arr l) => !l.isEmpty
        | _ => false) = true) ↔ (∃ l, c.getProp "children" = some (Val.arr l) ∧ l ≠ []) := by
      rcases hk : c.getProp "children" with _ | k
      · simp
      · rcases k with _ | _ | b2 | s2 | l2 | f2 <;> simp [List.isEmpty_iff]
    rcases ht : c.getPropD "type" with _ | _ | b | t | l | fs <;> simp only [ht] <;> try simp [ht]
    by_cases he : t = "ui-service-method"
    · simp [he]
      exact hiff
    · simp [he]
  · intro cfg functionDefs fuel node visited path st childList resolvedCs st1 href htp htype hkids hflag hbn
    simp only [buildNode]
    simp [href, htp, htype, hkids, hflag, hbn, nonNullChildren]

/-- C8 witness: the ui-services behavior applied to the concrete group of
empty methods under both filters. -/
theorem ui_services_filtering_witness :
    (truthy ((childAt uiServicesApp 0).getPropD "ref") = false
     ∧ truthy ((childAt uiServicesApp 0).getPropD "topicPublish") = false
     ∧ (childAt uiServicesApp 0).getPropD "type" = .str "ui-services"
     ∧ bothFiltersBuilder.config.filterEmptyUiServiceMethods = true)
    ∧ buildNode bothFiltersBuilder.config [] 20 (childAt uiServicesApp 0) [] [] ⟨[], []⟩ =
        (Val.null, ⟨[], []⟩) := by
  have hbn : buildNodes bothFiltersBuilder.config [] 19
      [Val.obj [("name", .str "m1"), ("type", .str "ui-service-method")],
       Val.obj [("name", .str "m2"), ("type", .str "ui-service-method"), ("children", .arr [])]]
      [] [] ⟨[], []⟩ =
      ([Val.obj [("name", .str "m1"), ("type", .str "ui-service-method")],
        Val.obj [("name", .str "m2"), ("type", .str "ui-service-method"), ("children", .arr []),
                 ("children", .arr [])]], ⟨[], []⟩) := rfl
  have h := ui_services_filtering.2.1 bothFiltersBuilder.config [] 19 (childAt uiServicesApp 0)
    [] [] ⟨[], []⟩ _ _ ⟨[], []⟩ rfl rfl rfl rfl rfl hbn
  refine ⟨⟨rfl, rfl, rfl, rfl⟩, ?_⟩
  rw [h]
  rfl

theorem truthy_str_iff (s : String) : truthy (.str s) = true ↔ s ≠ "" := by
  simp only [truthy, Bool.not_eq_true', List.isEmpty_eq_false, ne_eq]
  constructor
  · intro h hs
    subst hs
    exact h rfl
  · intro h hd
    apply h
    cases s
    simp at hd
    subst hd
    rfl

/-- C2 counterexample: an inline `queueName` of `""` is a defined value,
yet the engine's `||` chain skips it — the wrapper is named from the
registry queue `FUNC.Q`, not from the first *defined* candidate `""`. -/
theorem async_queue_priority_counterexample :
    (TreeBuilder.asyncRef "func" (.str "") []).getProp "queueName" = some (.str "")
    ∧ (childAt (queueBuilder.build 20 (asyncApp (.str ""))).1 0).getProp "name" =
        some (.str "FUNC.Q")
    ∧ some (Val.str "FUNC.Q") ≠ some (Val.str "") :=
  ⟨rfl, rfl, by simp⟩

/-- C2 (amended): for an async reference `{ref, async: true, queueName?}`
the wrapper is a `timer` node whose name is the first JavaScript-truthy
(defined, non-null and non-empty) value among the resolver-returned
`queueName`, the inline `queueName` and the function's registry
`queueName`, with `<displayName>_queue` as the final fallback — in both
passes; concretely, registry `FUNC.Q` is used when nothing overrides it, an
inline `INLINE.Q` beats it, and a resolver-returned `R.Q` beats both. -/
theorem async_queue_priority :
    (∀ (cfg : Config) (functionDefs : List (String × Val)) (fuel : Nat)
       (refName : String) (inlineQ : Val) (visited path : List String)
       (st : ResolutionState) (rProps : Val) (errLines : List Val),
       refName ≠ "" →
       resolveExternalProps cfg.asyncResolver "asyncResolver" (.str refName)
         (jsOr inlineQ (funcQueueNameOf functionDefs refName)) = (rProps, errLines) →
       getField (spreadFields rProps) "name" = none →
       getField (spreadFields rProps) "type" = none →
       ((resolveChild cfg functionDefs (fuel + 1) (TreeBuilder.asyncRef refName inlineQ [])
           visited path st).1.getProp "type" = some (.str "timer")
        ∧ (resolveChild cfg functionDefs (fuel + 1) (TreeBuilder.asyncRef refName inlineQ [])
            visited path st).1.getProp "name" =
            some (specQueuePriority
              [rProps.getPropD "queueName", inlineQ, funcQueueNameOf functionDefs refName]
              (.str (getDisplayName functionDefs refName ++ "_queue")))))
    ∧ (∀ (cfg : Config) (functionDefs : List (String × Val)) (fuel : Nat)
         (refName : String) (inlineQ : Val) (visited path : List String)
         (st : ResolutionState) (rProps : Val) (errLines : List Val),
         refName ≠ "" →
         resolveExternalProps cfg.asyncResolver "asyncResolver" (.str refName)
           (jsOr inlineQ (funcQueueNameOf functionDefs refName)) = (rProps, errLines) →
         getField (spreadFields rProps) "name" = none →
         getField (spreadFields rProps) "type" = none →
         ((buildNode cfg functionDefs (fuel + 1) (TreeBuilder.asyncRef refName inlineQ [])
             visited path st).1.getProp "type" = some (.str "timer")
          ∧ (buildNode cfg functionDefs (fuel + 1) (TreeBuilder.asyncRef refName inlineQ [])
              visited path st).1.getProp "name" =
              some (specQueuePriority
                [rProps.getPropD "queueName", inlineQ, funcQueueNameOf functionDefs refName]
                (.str (getDisplayName functionDefs refName ++ "_queue")))))
    ∧ (childAt (queueBuilder.build 20 (asyncApp Val.undef)).1 0).getProp "name" =
        some (.str "FUNC.Q")
    ∧ (childAt (queueBuilder.build 20 (asyncApp (.str "INLINE.Q"))).1 0).getProp "name" =
        some (.str "INLINE.Q")
    ∧ (childAt (resolverQueueBuilder.build 20 (asyncApp (.str "INLINE.Q"))).1 0).getProp "name" =
        some (.str "R.Q") := by
  refine ⟨?_, ?_, rfl, rfl, rfl⟩
  · intro cfg functionDefs fuel refName inlineQ visited path st rProps errLines href hEP hname htype
    have htr : truthy (.str refName) = true := (truthy_str_iff refName).mpr href
    have htb : truthy (.bool true) = true := rfl
    have h1 : (TreeBuilder.asyncRef refName inlineQ []).getPropD "ref" = .str refName := rfl
    have h2 : (TreeBuilder.asyncRef refName inlineQ []).getPropD "async" = .bool true := rfl
    have h3 : (TreeBuilder.asyncRef refName inlineQ []).getPropD "queueName" = inlineQ := rfl
    have h4 : removeKeys (spreadFields (TreeBuilder.asyncRef refName inlineQ []))
        ["ref", "async", "queueName"] = [] := rfl
    simp only [resolveChild, h1, h2, h3, h4, htr, htb, strOf, Bool.not_true, Bool.and_false,
      Bool.false_and, Bool.and_true, Bool.true_and, Bool.false_eq_true, if_false, if_true, hEP]
    constructor <;>
      rw [getProp_applyLogMetadataLine _ _ _ _ (by decide)] <;>
      rcases hml : mergeMetadataLines [.arr errLines,
        (getField ([] : List (String × Val)) "metadata_lines").getD Val.undef,
        rProps.getPropD "metadata_lines"] with _ | ls <;>
      simp [hml, Val.getProp, getField_append, getField, hname, htype, specQueuePriority, jsOr]
  · intro cfg functionDefs fuel refName inlineQ visited path st rProps errLines href hEP hname htype
    have htr : truthy (.str refName) = true := (truthy_str_iff refName).mpr href
    have htb : truthy (.bool true) = true := rfl
    have h1 : (TreeBuilder.asyncRef refName inlineQ []).getPropD "ref" = .str refName := rfl
    have h2 : (TreeBuilder.asyncRef refName inlineQ []).getPropD "async" = .bool true := rfl
    have h3 : (TreeBuilder.asyncRef refName inlineQ []).getPropD "queueName" = inlineQ := rfl
    have h4 : removeKeys (spreadFields (TreeBuilder.asyncRef refName inlineQ []))
        ["ref", "async", "queueName"] = [] := rfl
    simp only [buildNode, h1, h2, h3, h4, htr, htb, strOf, Bool.not_true, Bool.and_false,
      Bool.false_and, Bool.and_true, Bool.true_and, Bool.false_eq_true, if_false, if_true, hEP]
    constructor <;>
      rw [getProp_applyLogMetadataLine _ _ _ _ (by decide)] <;>
      rcases hml : mergeMetadataLines [.arr errLines,
        (getField ([] : List (String × Val)) "metadata_lines").getD Val.undef,
        rProps.getPropD "metadata_lines"] with _ | ls <;>
      simp [hml, Val.getProp, getField_append, getField, hname, htype, specQueuePriority, jsOr]

/-- C2 witness: the amended priority applied to `queueBuilder` with no
inline queue and no resolver, yielding the registry queue `FUNC.Q`. -/
theorem async_queue_priority_witness :
    ("func" ≠ ""
     ∧ resolveExternalProps ({} : Config).asyncResolver "asyncResolver" (.str "func")
         (jsOr Val.undef (funcQueueNameOf queueBuilder.functionDefs "func")) = (.obj [], [])
     ∧ getField (spreadFields (.obj [] : Val)) "name" = none
     ∧ getField (spreadFields (.obj [] : Val)) "type" = none)
    ∧ ((resolveChild {} queueBuilder.functionDefs (5 + 1) (TreeBuilder.asyncRef "func" Val.undef [])
          [] [] ⟨[], []⟩).1.getProp "type" = some (.str "timer")
       ∧ (resolveChild {} queueBuilder.functionDefs (5 + 1) (TreeBuilder.asyncRef "func" Val.undef [])
           [] [] ⟨[], []⟩).1.getProp "name" =
           some (specQueuePriority
             [(Val.obj []).getPropD "queueName", Val.undef, funcQueueNameOf queueBuilder.functionDefs "func"]
             (.str (getDisplayName queueBuilder.functionDefs "func" ++ "_queue")))) :=
  ⟨⟨by decide, rfl, rfl, rfl⟩,
   async_queue_priority.1 {} queueBuilder.functionDefs 5 "func" Val.undef [] [] ⟨[], []⟩
     (.obj []) [] (by decide) rfl rfl rfl⟩

/-- C3 counterexample: in pass 2 a resolver-returned `queueName` is spread
onto the wrapper without the `queueName: undefined` cleanup of pass 1, so
the output timer node carries `queueName: "R.Q"` as a property key in
addition to its name. -/
theorem queueName_key_counterexample :
    (childAt (resolverQueueBuilder.build 20 (asyncApp Val.undef)).1 0).hasProp "queueName" = true
    ∧ (childAt (resolverQueueBuilder.build 20 (asyncApp Val.undef)).1 0).getProp "queueName" =
        some (.str "R.Q")
    ∧ (childAt (resolverQueueBuilder.build 20 (asyncApp Val.undef)).1 0).getProp "name" =
        some (.str "R.Q") :=
  ⟨rfl, rfl, rfl⟩

/-- C3 (amended): in pass 1 every async or topic-publish wrapper resets its
`queueName` property to an explicit `undefined`, so no defined inline,
registry or resolver queue value is ever echoed there; in pass 2 the
wrapper carries no `queueName` key at all unless the resolver result
itself supplies one (that single case, shown false in the counterexample,
echoes the resolver's value as a property alongside the name). -/
theorem queueName_key_handling :
    (∀ (cfg : Config) (functionDefs : List (String × Val)) (fuel : Nat)
       (child : Val) (visited path : List String) (st : ResolutionState),
       truthy (child.getPropD "ref") = true →
       truthy (child.getPropD "async") = true →
       (resolveChild cfg functionDefs (fuel + 1) child visited path st).1.getProp "queueName" =
         some Val.undef)
    ∧ (∀ (cfg : Config) (functionDefs : List (String × Val)) (fuel : Nat)
         (child : Val) (visited path : List String) (st : ResolutionState),
         truthy (child.getPropD "ref") = false →
         truthy (child.getPropD "topicPublish") = true →
         (resolveChild cfg functionDefs (fuel + 1) child visited path st).1.getProp "queueName" =
           some Val.undef)
    ∧ (∀ (cfg : Config) (functionDefs : List (String × Val)) (fuel : Nat)
         (node : Val) (visited path : List String) (st : ResolutionState)
         (rProps : Val) (errLines : List Val),
         truthy (node.getPropD "ref") = true →
         truthy (node.getPropD "async") = true →
         resolveExternalProps cfg.asyncResolver "asyncResolver" (.str (strOf (node.getPropD "ref")))
           (jsOr (node.getPropD "queueName")
             (funcQueueNameOf functionDefs (strOf (node.getPropD "ref")))) = (rProps, errLines) →
         getField (spreadFields rProps) "queueName" = none →
         (buildNode cfg functionDefs (fuel + 1) node visited path st).1.hasProp "queueName" = false)
    ∧ (∀ (cfg : Config) (functionDefs : List (String × Val)) (fuel : Nat)
         (node : Val) (visited path : List String) (st : ResolutionState)
         (rProps : Val) (errLines : List Val),
         truthy (node.getPropD "ref") = false →
         truthy (node.getPropD "topicPublish") = true →
         resolveExternalProps cfg.topicPublishResolver "topicPublishResolver"
           (jsOr (node.getPropD "topicName") (.str "unknown topic"))
           (node.getPropD "queueName") = (rProps, errLines) →
         getField (spreadFields rProps) "queueName" = none →
         (buildNode cfg functionDefs (fuel + 1) node visited path st).1.hasProp "queueName" = false) := by
  refine ⟨?_, ?_, ?_, ?_⟩
  · intro cfg functionDefs fuel child visited path st href hasync
    simp only [resolveChild, href, hasync, Bool.not_true, Bool.and_false, Bool.false_and,
      Bool.and_true, Bool.true_and, Bool.false_eq_true, if_false, if_true]
    rw [getProp_applyLogMetadataLine _ _ _ _ (by decide)]
    rcases hml : mergeMetadataLines [.arr (resolveExternalProps cfg.asyncResolver "asyncResolver"
        (.str (strOf (child.getPropD "ref")))
        (jsOr (child.getPropD "queueName")
          (funcQueueNameOf functionDefs (strOf (child.getPropD "ref"))))).2,
      (getField (removeKeys (spreadFields child) ["ref", "async", "queueName"]) "metadata_lines").getD Val.undef,
      ((resolveExternalProps cfg.asyncResolver "asyncResolver"
        (.str (strOf (child.getPropD "ref")))
        (jsOr (child.getPropD "queueName")
          (funcQueueNameOf functionDefs (strOf (child.getPropD "ref"))))).1).getPropD "metadata_lines"] with _ | ls <;>
      simp [hml, Val.getProp, getField_append, getField]
  · intro cfg functionDefs fuel child visited path st href htp
    simp only [resolveChild, href, htp, Bool.not_true, Bool.and_false, Bool.false_and,
      Bool.and_true, Bool.true_and, Bool.false_eq_true, if_false, if_true]
    rw [getProp_applyLogMetadataLine _ _ _ _ (by decide)]
    rcases hml : mergeMetadataLines [.arr (resolveExternalProps cfg.topicPublishResolver "topicPublishResolver"
        (jsOr (child.getPropD "topicName") (.str "unknown topic"))
        (child.getPropD "queueName")).2,
      (getField (removeKeys (spreadFields child) ["ref", "topicName", "topicPublish", "queueName"]) "metadata_lines").getD Val.undef,
      ((resolveExternalProps cfg.topicPublishResolver "topicPublishResolver"
        (jsOr (child.getPropD "topicName") (.str "unknown topic"))
        (child.getPropD "queueName")).1).getPropD "metadata_lines"] with _ | ls <;>
      simp [hml, Val.getProp, getField_append, getField]
  · intro cfg functionDefs fuel node visited path st rProps errLines href hasync hEP hq
    simp only [buildNode, href, hasync, Bool.not_true, Bool.and_false, Bool.false_and,
      Bool.and_true, Bool.true_and, Bool.false_eq_true, if_false, if_true, hEP]
    rw [hasProp_applyLogMetadataLine _ _ _ _ (by decide)]
    rcases hml : mergeMetadataLines [.arr errLines,
      (getField (removeKeys (spreadFields node) ["ref", "async", "queueName"]) "metadata_lines").getD Val.undef,
      rProps.getPropD "metadata_lines"] with _ | ls <;>
      simp [hml, Val.hasProp, List.any_append, any_removeKeys, any_eq_false_of_getField_none _ _ hq]
  · intro cfg functionDefs fuel node visited path st rProps errLines href htp hEP hq
    simp only [buildNode, href, htp, Bool.not_true, Bool.and_false, Bool.false_and,
      Bool.and_true, Bool.true_and, Bool.false_eq_true, if_false, if_true, hEP]
    rw [hasProp_applyLogMetadataLine _ _ _ _ (by decide)]
    rcases hml : mergeMetadataLines [.arr errLines,
      (getField (removeKeys (spreadFields node) ["ref", "topicName", "topicPublish", "queueName"]) "metadata_lines").getD Val.undef,
      rProps.getPropD "metadata_lines"] with _ | ls <;>
      simp [hml, Val.hasProp, List.any_append, any_removeKeys, any_eq_false_of_getField_none _ _ hq]

/-- C3 witness: the pass-1 cleanup applied at a concrete async reference. -/
theorem queueName_key_handling_witness :
    (truthy ((TreeBuilder.asyncRef "func" (.str "INLINE.Q") []).getPropD "ref") = true
     ∧ truthy ((TreeBuilder.asyncRef "func" (.str "INLINE.Q") []).getPropD "async") = true)
    ∧ (resolveChild {} queueBuilder.functionDefs (5 + 1)
        (TreeBuilder.asyncRef "func" (.str "INLINE.Q") []) [] [] ⟨[], []⟩).1.getProp "queueName" =
        some Val.undef :=
  ⟨⟨rfl, rfl⟩,
   queueName_key_handling.1 {} queueBuilder.functionDefs 5
     (TreeBuilder.asyncRef "func" (.str "INLINE.Q") []) [] [] ⟨[], []⟩ rfl rfl⟩

/-- C5: a throwing resolver is isolated to the reference being resolved: the
wrapper gets exactly one additional non-clickable metadata line
`<resolverName> errored out: <message>` (prepended to any lines the
reference already carried), its name falls back to the inline / registry /
default queue-name chain because the failed resolver contributes no props,
and — as the concrete run shows — sibling branches of the same build are
unaffected; the model is total, so the resolver error never escapes
`build()`. -/
theorem resolver_error_isolation :
    (∀ (cfg : Config) (functionDefs : List (String × Val)) (fuel : Nat)
       (refName : String) (inlineQ : Val) (ownLines : List Val)
       (visited path : List String) (st : ResolutionState)
       (r : Val → Val → ResolverResult) (m : String),
       cfg.asyncResolver = some r →
       r (.str refName) (jsOr inlineQ (funcQueueNameOf functionDefs refName)) = .thrown m →
       m ≠ "" →
       cfg.logNodeTypes = none →
       refName ≠ "" →
       (∀ l ∈ ownLines, truthy l = true) →
       ((resolveChild cfg functionDefs (fuel + 1)
           (TreeBuilder.asyncRef refName inlineQ [("metadata_lines", .arr ownLines)])
           visited path st).1.getProp "metadata_lines" =
         some (.arr (Val.obj [("text", .str ("asyncResolver errored out: " ++ m)),
           ("clickable", .bool false)] :: ownLines))
        ∧ (resolveChild cfg functionDefs (fuel + 1)
            (TreeBuilder.asyncRef refName inlineQ [("metadata_lines", .arr ownLines)])
            visited path st).1.getProp "name" =
          some (jsOr inlineQ (jsOr (funcQueueNameOf functionDefs refName)
            (.str (getDisplayName functionDefs refName ++ "_queue"))))))
    ∧ (∀ (cfg : Config) (functionDefs : List (String × Val)) (fuel : Nat)
         (topicNameV inlineQ : Val) (ownLines : List Val)
         (visited path : List String) (st : ResolutionState)
         (r : Val → Val → ResolverResult) (m : String),
         cfg.topicPublishResolver = some r →
         r (jsOr topicNameV (.str "unknown topic")) inlineQ = .thrown m →
         m ≠ "" →
         cfg.logNodeTypes = none →
         (∀ l ∈ ownLines, truthy l = true) →
         ((resolveChild cfg functionDefs (fuel + 1)
             (TreeBuilder.topicPublishRef topicNameV inlineQ [("metadata_lines", .arr ownLines)])
             visited path st).1.getProp "metadata_lines" =
           some (.arr (Val.obj [("text", .str ("topicPublishResolver errored out: " ++ m)),
             ("clickable", .bool false)] :: ownLines))
          ∧ (resolveChild cfg functionDefs (fuel + 1)
              (TreeBuilder.topicPublishRef topicNameV inlineQ [("metadata_lines", .arr ownLines)])
              visited path st).1.getProp "name" =
            some (jsOr inlineQ
              (if truthy topicNameV then Val.str (strOf topicNameV ++ "_queue")
               else Val.str "unknown topic"))))
    ∧ (childAt (throwingResolverBuilder.build 20 throwingResolverApp).1 0).getProp "metadata_lines" =
        some (.arr [.obj [("text", .str "asyncResolver errored out: boom"), ("clickable", .bool false)]])
    ∧ (childAt (throwingResolverBuilder.build 20 throwingResolverApp).1 0).getProp "name" =
        some (.str "AQ")
    ∧ (childAt (throwingResolverBuilder.build 20 throwingResolverApp).1 0).getProp "type" =
        some (.str "timer")
    ∧ (childAt (throwingResolverBuilder.build 20 throwingResolverApp).1 1).getProp "name" =
        some (.str "good")
    ∧ (childAt (throwingResolverBuilder.build 20 throwingResolverApp).1 1).getProp "type" =
        some (.str "function") := by
  refine ⟨?_, ?_, rfl, rfl, rfl, rfl, rfl⟩
  · intro cfg functionDefs fuel refName inlineQ ownLines visited path st r m hres hr hm hln href hOwn
    have htr : truthy (.str refName) = true := (truthy_str_iff refName).mpr href
    have htb : truthy (.bool true) = true := rfl
    have hlog : ∀ (n : Val) (e : List (String × Val)), applyLogMetadataLine cfg n e = n := by
      intro n e
      unfold applyLogMetadataLine
      rw [hln]
    have hEP : resolveExternalProps cfg.asyncResolver "asyncResolver" (.str refName)
        (jsOr inlineQ (funcQueueNameOf functionDefs refName)) =
        (.obj [], [Val.obj [("text", .str ("asyncResolver errored out: " ++ m)),
          ("clickable", .bool false)]]) := by
      rw [hres]
      simp only [resolveExternalProps, hr, createResolverErrorMetadataLines]
      rw [if_neg hm]
      rfl
    have h1 : (TreeBuilder.asyncRef refName inlineQ [("metadata_lines", .arr ownLines)]).getPropD "ref" = .str refName := rfl
    have h2 : (TreeBuilder.asyncRef refName inlineQ [("metadata_lines", .arr ownLines)]).getPropD "async" = .bool true := rfl
    have h3 : (TreeBuilder.asyncRef refName inlineQ [("metadata_lines", .arr ownLines)]).getPropD "queueName" = inlineQ := rfl
    have h4 : removeKeys (spreadFields (TreeBuilder.asyncRef refName inlineQ [("metadata_lines", .arr ownLines)]))
        ["ref", "async", "queueName"] = [("metadata_lines", .arr ownLines)] := rfl
    have hml : mergeMetadataLines [.arr [Val.obj [("text", .str ("asyncResolver errored out: " ++ m)),
          ("clickable", .bool false)]],
        (getField [("metadata_lines", Val.arr ownLines)] "metadata_lines").getD Val.undef,
        (Val.obj [] : Val).getPropD "metadata_lines"] =
        some (Val.obj [("text", .str ("asyncResolver errored out: " ++ m)),
          ("clickable", .bool false)] :: ownLines) := by
      simp [mergeMetadataLines, getField, Val.getPropD, Val.getProp, truthy,
        List.filter_eq_self.mpr hOwn]
    simp only [resolveChild, h1, h2, h3, h4, htr, htb, strOf, Bool.not_true, Bool.and_false,
      Bool.false_and, Bool.and_true, Bool.true_and, Bool.false_eq_true, if_false, if_true,
      hEP, hml, hlog]
    constructor <;>
      simp [Val.getProp, Val.getPropD, getField_append, getField, jsOr, truthy]
  · intro cfg functionDefs fuel topicNameV inlineQ ownLines visited path st r m hres hr hm hln hOwn
    have hlog : ∀ (n : Val) (e : List (String × Val)), applyLogMetadataLine cfg n e = n := by
      intro n e
      unfold applyLogMetadataLine
      rw [hln]
    have hEP : resolveExternalProps cfg.topicPublishResolver "topicPublishResolver"
        (jsOr topicNameV (.str "unknown topic")) inlineQ =
        (.obj [], [Val.obj [("text", .str ("topicPublishResolver errored out: " ++ m)),
          ("clickable", .bool false)]]) := by
      rw [hres]
      simp only [resolveExternalProps, hr, createResolverErrorMetadataLines]
      rw [if_neg hm]
      rfl
    have h1 : (TreeBuilder.topicPublishRef topicNameV inlineQ [("metadata_lines", .arr ownLines)]).getPropD "ref" = Val.undef := rfl
    have h2 : (TreeBuilder.topicPublishRef topicNameV inlineQ [("metadata_lines", .arr ownLines)]).getPropD "topicPublish" = .bool true := rfl
    have h3 : (TreeBuilder.topicPublishRef topicNameV inlineQ [("metadata_lines", .arr ownLines)]).getPropD "topicName" = topicNameV := rfl
    have h4 : (TreeBuilder.topicPublishRef topicNameV inlineQ [("metadata_lines", .arr ownLines)]).getPropD "queueName" = inlineQ := rfl
    have h5 : removeKeys (spreadFields (TreeBuilder.topicPublishRef topicNameV inlineQ [("metadata_lines", .arr ownLines)]))
        ["ref", "topicName", "topicPublish", "queueName"] =
        [("async", .bool false), ("metadata_lines", .arr ownLines)] := rfl
    have hml : mergeMetadataLines [.arr [Val.obj [("text", .str ("topicPublishResolver errored out: " ++ m)),
          ("clickable", .bool false)]],
        (getField [("async", Val.bool false), ("metadata_lines", Val.arr ownLines)] "metadata_lines").getD Val.undef,
        (Val.obj [] : Val).getPropD "metadata_lines"] =
        some (Val.obj [("text", .str ("topicPublishResolver errored out: " ++ m)),
          ("clickable", .bool false)] :: ownLines) := by
      simp [mergeMetadataLines, getField, Val.getPropD, Val.getProp, truthy,
        List.filter_eq_self.mpr hOwn]
    simp only [resolveChild, h1, h2, h3, h4, h5, truthy, Bool.not_true, Bool.and_false,
      Bool.false_and, Bool.and_true, Bool.true_and, Bool.false_eq_true, Bool.not_false,
      if_false, if_true, hEP, hml, hlog]
    constructor <;>
      simp [Val.getProp, Val.getPropD, getField_append, getField, jsOr, truthy]

/-- C5 witness: the async part applied to the always-throwing resolver of
`throwingResolverBuilder`. -/
theorem resolver_error_isolation_witness :
    (throwingResolverBuilder.config.asyncResolver =
       some (fun _ _ => ResolverResult.thrown "boom")
     ∧ ("boom" : String) ≠ ""
     ∧ throwingResolverBuilder.config.logNodeTypes = none
     ∧ ("af" : String) ≠ "")
    ∧ ((resolveChild throwingResolverBuilder.config throwingResolverBuilder.functionDefs (5 + 1)
          (TreeBuilder.asyncRef "af" Val.undef [("metadata_lines", .arr [])])
          [] [] ⟨[], []⟩).1.getProp "metadata_lines" =
        some (.arr [Val.obj [("text", .str ("asyncResolver errored out: " ++ "boom")),
          ("clickable", .bool false)]])
       ∧ (resolveChild throwingResolverBuilder.config throwingResolverBuilder.functionDefs (5 + 1)
           (TreeBuilder.asyncRef "af" Val.undef [("metadata_lines", .arr [])])
           [] [] ⟨[], []⟩).1.getProp "name" =
         some (jsOr Val.undef (jsOr (funcQueueNameOf throwingResolverBuilder.functionDefs "af")
           (.str (getDisplayName throwingResolverBuilder.functionDefs "af" ++ "_queue"))))) :=
  ⟨⟨rfl, by decide, rfl, by decide⟩,
   resolver_error_isolation.1 throwingResolverBuilder.config throwingResolverBuilder.functionDefs
     5 "af" Val.undef [] [] [] ⟨[], []⟩ (fun _ _ => ResolverResult.thrown "boom") "boom"
     rfl rfl (by decide) rfl (by decide) (by intro l hl; cases hl)⟩

theorem resolveExternalProps_nullish (r : Val → Val → ResolverResult)
    (h : ∀ a b, r a b = .ok .null ∨ r a b = .ok Val.undef)
    (n : String) (a b : Val) :
    resolveExternalProps (some r) n a b = resolveExternalProps none n a b := by
  rcases h a b with hr | hr <;> simp [resolveExternalProps, hr]

theorem resolver_removal_core (cfg : Config) (functionDefs : List (String × Val))
    (hA : ∀ a b, resolveExternalProps cfg.asyncResolver "asyncResolver" a b =
      resolveExternalProps none "asyncResolver" a b)
    (hT : ∀ a b, resolveExternalProps cfg.topicPublishResolver "topicPublishResolver" a b =
      resolveExternalProps none "topicPublishResolver" a b) :
    ∀ fuel : Nat,
      (∀ (name : String) (visited path : List String) (st : ResolutionState),
        resolveAndCacheFunction cfg functionDefs fuel name visited path st =
          resolveAndCacheFunction { cfg with asyncResolver := none, topicPublishResolver := none }
            functionDefs fuel name visited path st)
      ∧ (∀ (child : Val) (visited path : List String) (st : ResolutionState),
        resolveChild cfg functionDefs fuel child visited path st =
          resolveChild { cfg with asyncResolver := none, topicPublishResolver := none }
            functionDefs fuel child visited path st)
      ∧ (∀ (cs : List Val) (visited path : List String) (st : ResolutionState),
        resolveChildren cfg functionDefs fuel cs visited path st =
          resolveChildren { cfg with asyncResolver := none, topicPublishResolver := none }
            functionDefs fuel cs visited path st) := by
  have hLog : ∀ (n : Val) (e : List (String × Val)),
      applyLogMetadataLine { cfg with asyncResolver := none, topicPublishResolver := none } n e =
        applyLogMetadataLine cfg n e := fun n e => rfl
  intro fuel
  induction fuel with
  | zero =>
    refine ⟨fun name visited path st => rfl, fun child visited path st => rfl,
      fun cs visited path st => ?_⟩
    cases cs <;> rfl
  | succ f ih =>
    obtain ⟨ihF, ihC, ihCs⟩ := ih
    refine ⟨?_, ?_, ?_⟩
    · intro name visited path st
      simp only [resolveAndCacheFunction, ihCs, hLog]
    · intro child visited path st
      simp only [resolveChild, hA, hT, ihF, ihCs, hLog]
    · intro cs visited path st
      cases cs with
      | nil => rfl
      | cons c rest =>
        simp only [resolveChildren, ihC, ihCs]

theorem resolver_removal_gfwcc (cfg : Config) (functionDefs : List (String × Val))
    (hA : ∀ a b, resolveExternalProps cfg.asyncResolver "asyncResolver" a b =
      resolveExternalProps none "asyncResolver" a b)
    (hT : ∀ a b, resolveExternalProps cfg.topicPublishResolver "topicPublishResolver" a b =
      resolveExternalProps none "topicPublishResolver" a b)
    (fuel : Nat) (name : String) (visited path : List String) (st : ResolutionState) :
    getFunctionWithCycleCheck cfg functionDefs fuel name visited path st =
      getFunctionWithCycleCheck { cfg with asyncResolver := none, topicPublishResolver := none }
        functionDefs fuel name visited path st := by
  unfold getFunctionWithCycleCheck
  simp only [(resolver_removal_core cfg functionDefs hA hT fuel).1]

theorem resolver_removal_build (cfg : Config) (functionDefs : List (String × Val))
    (hA : ∀ a b, resolveExternalProps cfg.asyncResolver "asyncResolver" a b =
      resolveExternalProps none "asyncResolver" a b)
    (hT : ∀ a b, resolveExternalProps cfg.topicPublishResolver "topicPublishResolver" a b =
      resolveExternalProps none "topicPublishResolver" a b) :
    ∀ fuel : Nat,
      (∀ (node : Val) (visited path : List String) (st : ResolutionState),
        buildNode cfg functionDefs fuel node visited path st =
          buildNode { cfg with asyncResolver := none, topicPublishResolver := none }
            functionDefs fuel node visited path st)
      ∧ (∀ (ns : List Val) (visited path : List String) (st : ResolutionState),
        buildNodes cfg functionDefs fuel ns visited path st =
          buildNodes { cfg with asyncResolver := none, topicPublishResolver := none }
            functionDefs fuel ns visited path st) := by
  have hLog : ∀ (n : Val) (e : List (String × Val)),
      applyLogMetadataLine { cfg with asyncResolver := none, topicPublishResolver := none } n e =
        applyLogMetadataLine cfg n e := fun n e => rfl
  intro fuel
  induction fuel with
  | zero =>
    refine ⟨fun node visited path st => rfl, fun ns visited path st => ?_⟩
    cases ns <;> rfl
  | succ f ih =>
    obtain ⟨ihN, ihNs⟩ := ih
    refine ⟨?_, ?_⟩
    · intro node visited path st
      simp only [buildNode, hA, hT, ihNs, hLog,
        resolver_removal_gfwcc cfg functionDefs hA hT f]
    · intro ns visited path st
      cases ns with
      | nil => rfl
      | cons c rest =>
        simp only [buildNodes, ihN, ihNs]

theorem resolver_removal_preresolve (cfg : Config) (functionDefs : List (String × Val))
    (hA : ∀ a b, resolveExternalProps cfg.asyncResolver "asyncResolver" a b =
      resolveExternalProps none "asyncResolver" a b)
    (hT : ∀ a b, resolveExternalProps cfg.topicPublishResolver "topicPublishResolver" a b =
      resolveExternalProps none "topicPublishResolver" a b)
    (fuel : Nat) :
    ∀ (iter : List (String × Val)) (st : ResolutionState),
      preResolveAllFunctions cfg functionDefs fuel iter st =
        preResolveAllFunctions { cfg with asyncResolver := none, topicPublishResolver := none }
          functionDefs fuel iter st := by
  intro iter
  induction iter with
  | nil => intro st; rfl
  | cons p rest ih =>
    intro st
    obtain ⟨name, d⟩ := p
    simp only [preResolveAllFunctions, (resolver_removal_core cfg functionDefs hA hT fuel).1, ih]

/-- C9: resolvers that return only `null` or `undefined` behave exactly as
if no resolver were registered: pass-1 child resolution, pass-2
materialization and whole builds are unchanged when such resolvers are
removed — so no error metadata line is attached, no resolver props are
merged, and the inline/registry/default queue-name chain alone determines
wrapper names; concretely, `nullResolverBuilder` builds the very tree the
resolver-free `queueBuilder` builds. -/
theorem null_resolver_behaves_like_none (b : TreeBuilder)
    (hA : ∀ r, b.config.asyncResolver = some r →
       ∀ a v, r a v = .ok .null ∨ r a v = .ok Val.undef)
    (hT : ∀ r, b.config.topicPublishResolver = some r →
       ∀ a v, r a v = .ok .null ∨ r a v = .ok Val.undef) :
    (∀ (fuel : Nat) (child : Val) (visited path : List String) (st : ResolutionState),
      resolveChild b.config b.functionDefs fuel child visited path st =
        resolveChild { b.config with asyncResolver := none, topicPublishResolver := none }
          b.functionDefs fuel child visited path st)
    ∧ (∀ (fuel : Nat) (node : Val) (visited path : List String) (st : ResolutionState),
      buildNode b.config b.functionDefs fuel node visited path st =
        buildNode { b.config with asyncResolver := none, topicPublishResolver := none }
          b.functionDefs fuel node visited path st)
    ∧ (∀ (fuel : Nat) (root : Val),
      (b.build fuel root).1 =
        ({ b with config := { b.config with asyncResolver := none, topicPublishResolver := none } }.build fuel root).1)
    ∧ (nullResolverBuilder.build 20 (asyncApp (.str "INLINE.Q"))).1 =
        (queueBuilder.build 20 (asyncApp (.str "INLINE.Q"))).1 := by
  have hA' : ∀ a v, resolveExternalProps b.config.asyncResolver "asyncResolver" a v =
      resolveExternalProps none "asyncResolver" a v := by
    intro a v
    rcases hc : b.config.asyncResolver with _ | r
    · rfl
    · exact resolveExternalProps_nullish r (hA r hc) _ a v
  have hT' : ∀ a v, resolveExternalProps b.config.topicPublishResolver "topicPublishResolver" a v =
      resolveExternalProps none "topicPublishResolver" a v := by
    intro a v
    rcases hc : b.config.topicPublishResolver with _ | r
    · rfl
    · exact resolveExternalProps_nullish r (hT r hc) _ a v
  refine ⟨fun fuel => (resolver_removal_core b.config b.functionDefs hA' hT' fuel).2.1,
    fun fuel => (resolver_removal_build b.config b.functionDefs hA' hT' fuel).1, ?_, rfl⟩
  intro fuel root
  unfold TreeBuilder.build
  simp only [resolver_removal_preresolve b.config b.functionDefs hA' hT' fuel,
    (resolver_removal_build b.config b.functionDefs hA' hT' fuel).1]

/-- C9 witness: removing the null-returning resolvers of
`nullResolverBuilder` leaves its build output unchanged. -/
theorem null_resolver_behaves_like_none_witness :
    (nullResolverBuilder.build 20 (asyncApp Val.undef)).1 =
      ({ nullResolverBuilder with config := { nullResolverBuilder.config with asyncResolver := none, topicPublishResolver := none } }.build 20 (asyncApp Val.undef)).1 :=
  (null_resolver_behaves_like_none nullResolverBuilder
    (by
      intro r hr a v
      cases hr
      left
      rfl)
    (by
      intro r hr a v
      cases hr
      right
      rfl)).2.2.1 20 (asyncApp Val.undef)
